import Mathlib

set_option linter.unusedVariables false

/-!
# Shallow embedding of the iceframe table-maintenance modules

This file embeds the maintenance-related modules of the `iceframe` library
(`iceframe/compaction.py`, `iceframe/procedures.py`, `iceframe/gc.py`,
`iceframe/memory.py`, `iceframe/streaming.py`) and proves or refutes the
specification's claims about them.

Modelling conventions:
* A row of a dataframe is an association list from column names to integer
  values (the claims under study are insensitive to the cell type).
* A table's current snapshot content is the list of its rows; pyiceberg's
  `Table.overwrite(df)` with the default ALWAYS_TRUE filter deletes all
  existing data and appends `df`, so it is modelled as replacing the row list.
* Python exceptions are modelled by the `PyErr` type.  The constructor
  `PyErr.planningError` exists only to state the spec's error taxonomy; the
  repository defines no such class and no modelled function ever produces it.
* Functions of the repository that live in modules not present under `src/`
  (`iceframe.operations`) and external pyiceberg entry points are modelled
  from the spec; their doc comments say so explicitly.
-/

/-- Decidable equality of `Except` results, so that concrete runs of the
modelled operations can be checked by `decide`. -/
instance {ε α : Type} [DecidableEq ε] [DecidableEq α] : DecidableEq (Except ε α) := fun a b =>
  match a, b with
  | .error e, .error f =>
      if h : e = f then .isTrue (by rw [h]) else .isFalse (by intro hc; cases hc; exact h rfl)
  | .error _, .ok _ => .isFalse (by intro hc; cases hc)
  | .ok _, .error _ => .isFalse (by intro hc; cases hc)
  | .ok x, .ok y =>
      if h : x = y then .isTrue (by rw [h]) else .isFalse (by intro hc; cases hc; exact h rfl)

/-- A dataframe row: (column name, value) pairs. -/
abbrev Row := List (String × Int)

/-- A row filter as passed to `scan.filter`: it references one column and
tests its value.  (`iceframe` forwards the textual filter expression to
pyiceberg unparsed; a filter that references a single column suffices to
settle the claims about filter handling.) -/
structure FilterExpr where
  col : String
  test : Int → Bool

/-- The engine's view of an Iceberg table: schema (column names) and the rows
of the current snapshot. -/
structure IceTable where
  schema : List String
  rows : List Row
deriving DecidableEq, Repr

/-- Python exceptions relevant to the claims.  `planningError` is the spec's
name (`PlanningError`); the repository never defines or raises it. -/
inductive PyErr where
  | valueError
  | columnNotFoundError
  | notImplementedError
deriving DecidableEq, Repr

/-- The spec's `PlanningError` does not exist in the repository; we model the
spec's claimed error outcome separately so it can be compared with the real
one.  A result "fails with PlanningError" would have to be one of the real
`PyErr` values, and none of them is a planning error, which this predicate
records: no `PyErr` raised by the code is the spec's `PlanningError`. -/
def isPlanningError : PyErr → Bool := fun _ => false

/-- Modelled from the spec: pyiceberg `table.scan()` optionally filtered
(`scan.filter(filter_expr)`) and materialised (`scan.to_arrow()`).  Binding a
filter that references a column absent from the schema raises a
`ValueError`; otherwise the scan returns the rows whose referenced column
value passes the test (all rows when no filter is given). -/
def tableScan (t : IceTable) (filter_expr : Option FilterExpr) : Except PyErr (List Row) :=
  match filter_expr with
  | none => .ok t.rows
  | some f =>
      if t.schema.contains f.col then
        .ok (t.rows.filter (fun r =>
          match r.lookup f.col with
          | some v => f.test v
          | none => false))
      else
        .error .valueError

/-- The stats mapping returned by the compaction entry points.  Each field is
`none` when the corresponding key is absent from the Python dict. -/
structure CompactionStats where
  rewritten_files : Option Nat := none
  added_files : Option Nat := none
  rewritten_rows : Option Nat := none
  strategy : Option String := none
  sort_order : Option String := none
deriving DecidableEq, Repr

/-- `CompactionManager.bin_pack` (src/iceframe/compaction.py, lines 18-70):
scan the table (optionally filtered), return early with
`rewritten_files: 0, added_files: 0` when the scan is empty, otherwise
`table.overwrite` the scanned dataframe — which replaces the whole table
content — and report `rewritten_rows` and the strategy. -/
def CompactionManager.bin_pack (t : IceTable) (target_file_size_mb : Nat)
    (filter_expr : Option FilterExpr) : Except PyErr (IceTable × CompactionStats) :=
  match tableScan t filter_expr with
  | .error e => .error e
  | .ok df =>
      if df.length = 0 then
        .ok (t, { rewritten_files := some 0, added_files := some 0 })
      else
        .ok ({ t with rows := df },
             { rewritten_rows := some df.length, strategy := some "bin_pack" })

/-- The key tuple polars sorts by: the values of the sort columns in order
(missing columns never occur on the paths exercised, `0` is a formal
default). -/
def keyTuple (keys : List String) (r : Row) : List Int :=
  keys.map (fun k => ((r.lookup k).getD 0))

/-- Lexicographic comparison of key tuples (polars multi-column ascending
sort order). -/
def lexLe : List Int → List Int → Bool
  | [], _ => true
  | _ :: _, [] => false
  | a :: as, b :: bs => decide (a < b) || (decide (a = b) && lexLe as bs)

/-- Row comparison under a sort-key sequence. -/
def rowLe (keys : List String) (r1 r2 : Row) : Bool :=
  lexLe (keyTuple keys r1) (keyTuple keys r2)

/-- `df.sort(sort_order)` in polars: sort the rows by the key columns in
ascending lexicographic order (a stable sort producing a sorted
permutation; the concrete algorithm is the external library's). -/
def sortRows (keys : List String) (rows : List Row) : List Row :=
  List.insertionSort (fun r1 r2 => rowLe keys r1 r2 = true) rows

/-- `CompactionManager.sort` (src/iceframe/compaction.py, lines 72-110):
scan (optionally filtered), return early with `rewritten_files: 0` when the
scan is empty, otherwise `df.sort(sort_order)` — polars raises
`ColumnNotFoundError` when a sort key is absent from the dataframe — and
`table.overwrite` the sorted dataframe. -/
def CompactionManager.sort (t : IceTable) (sort_order : List String)
    (target_file_size_mb : Nat) (filter_expr : Option FilterExpr) :
    Except PyErr (IceTable × CompactionStats) :=
  match tableScan t filter_expr with
  | .error e => .error e
  | .ok df =>
      if df.length = 0 then
        .ok (t, { rewritten_files := some 0 })
      else if sort_order.all (fun k => t.schema.contains k) then
        .ok ({ t with rows := sortRows sort_order df },
             { rewritten_rows := some df.length, strategy := some "sort",
               sort_order := some (toString sort_order) })
      else
        .error .columnNotFoundError

/-- Python's `str.lower()` on the procedure name. -/
def pyLower (s : String) : String := ⟨s.data.map Char.toLower⟩

/-- Which maintenance routine `StoredProcedures.call` dispatches to.  The
dispatched routines themselves are modelled by `CompactionManager.bin_pack`,
`GarbageCollector.expire_snapshots` and `GarbageCollector.remove_orphan_files`
in this file; the dispatcher claim concerns only the name validation, which
happens before any routine is invoked. -/
inductive ProcOutcome where
  | rewrite_data_files
  | expire_snapshots
  | remove_orphan_files
  | fast_forward
deriving DecidableEq, Repr

/-- `StoredProcedures.call` (src/iceframe/procedures.py, lines 21-50):
lowercase the name, dispatch on the four registered names, otherwise raise
`ValueError("Unknown procedure: ...")`.  No parameter validation is
performed; `kwargs` are forwarded as-is to the dispatched routine. -/
def StoredProcedures.call (procedure_name : String) : Except PyErr ProcOutcome :=
  let proc := pyLower procedure_name
  if proc = "rewrite_data_files" then .ok .rewrite_data_files
  else if proc = "expire_snapshots" then .ok .expire_snapshots
  else if proc = "remove_orphan_files" then .ok .remove_orphan_files
  else if proc = "fast_forward" then .ok .fast_forward
  else .error .valueError

/-- A snapshot in the table's history: id and commit timestamp
(milliseconds). -/
structure Snapshot where
  snap_id : Nat
  timestamp : Nat
deriving DecidableEq, Repr

/-- A file physically present under the table's storage location, with its
last-modified time (milliseconds). -/
structure StoredFile where
  path : String
  last_modified : Nat
deriving DecidableEq, Repr

/-- The garbage collector's view of a table: the snapshot history ordered
oldest to newest (the current snapshot is the last element), the files
physically present in storage, the paths referenced by retained snapshots,
and whether the installed pyiceberg `Table` exposes `remove_orphan_files`
(gc.py probes this with `hasattr`). -/
structure GCTable where
  snapshots : List Snapshot
  files : List StoredFile
  live : List String
  supports_remove_orphans : Bool
deriving DecidableEq, Repr

/-- Filter a list by a predicate on the element's position and value
(position-aware retention of the snapshot history). -/
def keepIdx {α : Type} (p : Nat → α → Bool) : Nat → List α → List α
  | _, [] => []
  | i, x :: xs => if p i x then x :: keepIdx p (i + 1) xs else keepIdx p (i + 1) xs

/-- Modelled from the spec: pyiceberg's `Table.expire_snapshots(older_than_ms,
retain_last, delete_func)` is not part of this repository (gc.py only
delegates to it).  Per the spec's retention rule, the retained set is the
most recent `retain_last` snapshots, together with all snapshots younger
than the age cutoff, always including the current snapshot. -/
def pyicebergExpireSnapshots (older_than_ms : Option Nat) (retain_last : Nat)
    (now : Nat) (snaps : List Snapshot) : List Snapshot :=
  let n := snaps.length
  keepIdx (fun i s =>
    decide (n ≤ i + retain_last) ||
    (match older_than_ms with
     | some maxAge => decide (now < s.timestamp + maxAge)
     | none => false) ||
    decide (i + 1 = n)) 0 snaps

/-- `GarbageCollector.expire_snapshots` (src/iceframe/gc.py, lines 17-34):
delegates to pyiceberg's `Table.expire_snapshots`.  (The `delete_func`
argument is `self._parallel_delete(max_workers)`, which returns `None`, so
the default deletion is used; it does not affect the retained set.) -/
def GarbageCollector.expire_snapshots (older_than_ms : Option Nat)
    (retain_last : Nat) (max_workers : Nat) (now : Nat) (t : GCTable) : GCTable :=
  { t with snapshots := pyicebergExpireSnapshots older_than_ms retain_last now t.snapshots }

/-- Modelled from the spec: the default orphan grace period used when no
cutoff is passed (three days, in milliseconds). -/
def defaultOrphanGraceMs : Nat := 259200000

/-- Modelled from the spec: pyiceberg's `Table.remove_orphan_files` is not
part of this repository (gc.py only delegates when the attribute exists).
Per the spec, it lists the files under the table location, subtracts the
live set, and deletes only unreferenced files whose age measured from
last-modified time is at least the grace period. -/
def pyicebergRemoveOrphanFiles (older_than_ms : Option Nat) (now : Nat)
    (files : List StoredFile) (live : List String) : List StoredFile :=
  let grace := older_than_ms.getD defaultOrphanGraceMs
  files.filter (fun f => live.contains f.path || decide (now < f.last_modified + grace))

/-- `GarbageCollector.remove_orphan_files` (src/iceframe/gc.py, lines 36-53):
delegates to pyiceberg's `Table.remove_orphan_files` when the attribute
exists, otherwise raises `NotImplementedError` (and deletes nothing). -/
def GarbageCollector.remove_orphan_files (older_than_ms : Option Nat)
    (max_workers : Nat) (now : Nat) (t : GCTable) : Except PyErr GCTable :=
  if t.supports_remove_orphans then
    .ok { t with files := pyicebergRemoveOrphanFiles older_than_ms now t.files t.live }
  else
    .error .notImplementedError

/-- Modelled from the spec: `IceFrame.read_table` (src/iceframe/core.py)
delegates to `iceframe.operations.TableOperations.read_table`, a module not
present under src/.  With only a column selection it returns the table's
rows projected to the requested columns. -/
def IceFrame.read_table (t : IceTable) (columns : Option (List String)) : List Row :=
  match columns with
  | none => t.rows
  | some cols => t.rows.map (fun r => r.filter (fun p => cols.contains p.1))

/-- `MemoryManager.read_table_chunked` (src/iceframe/memory.py, lines 42-71):
read the full table first via `IceFrame.read_table`, then yield slices
`df.slice(start, min(start + chunk_size, total_rows) - start)` for `start`
in `range(0, total_rows, chunk_size)`.  Python's `range` with step `0`
raises a `ValueError`.  (The optional memory-limit check queries process
memory via psutil and never alters the yielded data; it is not modelled.) -/
def MemoryManager.read_table_chunked (t : IceTable) (chunk_size : Nat)
    (columns : Option (List String)) : Except PyErr (List (List Row)) :=
  if chunk_size = 0 then .error .valueError
  else
    let df := IceFrame.read_table t columns
    let total_rows := df.length
    let numChunks := (total_rows + chunk_size - 1) / chunk_size
    .ok ((List.range' 0 numChunks chunk_size).map (fun start =>
      let e := min (start + chunk_size) total_rows
      (df.drop start).take (e - start)))

/-- `StreamingWriter` (src/iceframe/streaming.py): configuration, buffered
records, last flush time, and — modelled from the spec, since
`IceFrame.append_to_table` delegates to the `iceframe.operations` module not
present under src/ — the list of batches appended to the target table so
far (each `append_to_table` call appends one dataframe of rows). -/
structure StreamingWriter where
  batch_size : Nat
  flush_interval : Nat
  buffer : List Row
  last_flush : Nat
  appended : List (List Row)
deriving DecidableEq, Repr

/-- `StreamingWriter.__init__`: empty buffer, `_last_flush = time.time()`,
nothing appended yet. -/
def StreamingWriter.init (batch_size flush_interval now : Nat) : StreamingWriter :=
  { batch_size := batch_size, flush_interval := flush_interval,
    buffer := [], last_flush := now, appended := [] }

/-- `StreamingWriter.flush` (src/iceframe/streaming.py, lines 51-59): return
at once when the buffer is empty; otherwise append the buffered dataframe to
the table, clear the buffer and reset the flush clock. -/
def StreamingWriter.flush (w : StreamingWriter) (now : Nat) : StreamingWriter :=
  if w.buffer.isEmpty then w
  else { w with buffer := [], appended := w.appended ++ [w.buffer], last_flush := now }

/-- `StreamingWriter.write` (src/iceframe/streaming.py, lines 37-49): append
the record to the buffer, then flush when the batch size is reached or the
flush interval has elapsed. -/
def StreamingWriter.write (w : StreamingWriter) (record : Row) (now : Nat) : StreamingWriter :=
  let w1 := { w with buffer := w.buffer ++ [record] }
  if w1.batch_size ≤ w1.buffer.length ∨ w1.flush_interval ≤ now - w1.last_flush then
    w1.flush now
  else
    w1

/-- `StreamingWriter.close` (src/iceframe/streaming.py, lines 61-63): flush
the remaining records. -/
def StreamingWriter.close (w : StreamingWriter) (now : Nat) : StreamingWriter :=
  w.flush now

/-- A sequence of `write` calls, each with the record and the wall-clock time
at which the call happens. -/
def StreamingWriter.writeSeq (w : StreamingWriter) : List (Row × Nat) → StreamingWriter
  | [] => w
  | (r, t) :: rest => (w.write r t).writeSeq rest

example : CompactionManager.bin_pack ⟨["id"], [[("id", 1)], [("id", 2)]]⟩ 128
    (some ⟨"id", fun v => decide (v = 1)⟩) =
    .ok (⟨["id"], [[("id", 1)]]⟩,
         { rewritten_rows := some 1, strategy := some "bin_pack" }) := by decide

example : StoredProcedures.call "Compact" = .error .valueError := by decide

example : MemoryManager.read_table_chunked ⟨["a"], [[("a", 1)], [("a", 2)], [("a", 3)], [("a", 4)], [("a", 5)]]⟩ 2 none =
    .ok [[[("a", 1)], [("a", 2)]], [[("a", 3)], [("a", 4)]], [[("a", 5)]]] := by decide

/-- A two-row table used as concrete input. -/
def sampleTable : IceTable := ⟨["id"], [[("id", 1)], [("id", 2)]]⟩

/-- A table whose scan returns no rows. -/
def emptyTable : IceTable := ⟨["id"], []⟩

/-- A filter selecting only the rows with `id = 1`. -/
def idOneFilter : FilterExpr := ⟨"id", fun v => decide (v = 1)⟩

/-- A filter referencing a column absent from `sampleTable`'s schema. -/
def badColFilter : FilterExpr := ⟨"nope", fun _ => true⟩

/-- The dispatcher's actual registry (procedures.py, lines 34-47). -/
def procRegistry : List String :=
  ["rewrite_data_files", "expire_snapshots", "remove_orphan_files", "fast_forward"]

/-- A two-row table stored in descending `id` order. -/
def unsortedTable : IceTable := ⟨["id"], [[("id", 2)], [("id", 1)]]⟩

/-- All rows a `StreamingWriter` has durably appended plus those still
buffered, in arrival order. -/
def wContent (w : StreamingWriter) : List Row := w.appended.flatten ++ w.buffer

/-- A GC state with three snapshots (the current one is the oldest-but-kept
last element), one stored file, no live references, and pyiceberg orphan
removal available. -/
def sampleGCTable : GCTable :=
  { snapshots := [⟨1, 0⟩, ⟨2, 10⟩, ⟨3, 20⟩],
    files := [⟨"data/a.parquet", 0⟩],
    live := [],
    supports_remove_orphans := true }

/-- Unfiltered `bin_pack` reduced to its two outcomes. -/
theorem binPack_none_eq (t : IceTable) :
    CompactionManager.bin_pack t 128 none =
      if t.rows.length = 0 then
        .ok (t, { rewritten_files := some 0, added_files := some 0 })
      else
        .ok (⟨t.schema, t.rows⟩,
             { rewritten_rows := some t.rows.length, strategy := some "bin_pack" }) := rfl

/-- Unfiltered `bin_pack` on a nonempty table overwrites with all scanned
rows. -/
theorem binPack_nonempty (t : IceTable) (hr : ¬ t.rows.length = 0) :
    CompactionManager.bin_pack t 128 none =
      .ok (⟨t.schema, t.rows⟩,
           { rewritten_rows := some t.rows.length, strategy := some "bin_pack" }) := by
  rw [binPack_none_eq, if_neg hr]

/-- A scan whose filter references a column absent from the schema fails
with `ValueError`. -/
theorem tableScan_not_mem (t : IceTable) (f : FilterExpr) (h : ¬ f.col ∈ t.schema) :
    tableScan t (some f) = .error .valueError := by
  have hc : t.schema.contains f.col = false := by simpa using h
  simp [tableScan, hc]
  exact h

/-- C1: the spec says bin-pack compaction is content-preserving — no row of
the pre-compaction current snapshot is lost, including rows in files not
selected by the filter.  The code violates this: with a row filter,
`bin_pack` commits `table.overwrite` of only the filtered rows, so the row
`id = 2`, present before the operation and not selected by the `id = 1`
filter, is absent from the committed state.  Evaluation of the code at the
failing input. -/
theorem binPack_filter_loses_unselected_rows :
    CompactionManager.bin_pack sampleTable 128 (some idOneFilter) =
      .ok (⟨["id"], [[("id", 1)]]⟩,
           { rewritten_rows := some 1, strategy := some "bin_pack" }) ∧
    [("id", 2)] ∈ sampleTable.rows ∧
    ¬ [("id", 2)] ∈ (⟨["id"], [[("id", 1)]]⟩ : IceTable).rows := by
  exact ⟨by decide, by decide, by decide⟩

/-- C2 counterexample: after a successful `bin_pack` on `sampleTable` the
committed state is `sampleTable` itself, so the second call is
`bin_pack sampleTable 128 none` again; its result reports
`rewritten_rows = 2` and carries no `rewritten_files` key at all — not the
empty plan (`rewritten_files: 0`) the claim promises, and the call performs
a full overwrite again. -/
theorem binPack_second_call_not_empty_plan :
    CompactionManager.bin_pack sampleTable 128 none =
      .ok (sampleTable, { rewritten_rows := some 2, strategy := some "bin_pack" }) ∧
    ¬ ({ rewritten_rows := some 2, strategy := some "bin_pack" } : CompactionStats).rewritten_files = some 0 ∧
    ¬ ({ rewritten_rows := some 2, strategy := some "bin_pack" } : CompactionStats).rewritten_rows = some 0 := by
  decide

/-- C2 amended: a second `bin_pack` with no intervening writes returns
exactly the same committed state and the same stats as the first call: on a
nonempty table it rewrites all rows again (`rewritten_rows = n`, no
`rewritten_files` key); only on an empty table does it report
`rewritten_files: 0`. -/
theorem binPack_stable_state_rewrites_all (t t1 : IceTable) (s1 : CompactionStats)
    (h : CompactionManager.bin_pack t 128 none = .ok (t1, s1)) :
    CompactionManager.bin_pack t1 128 none = .ok (t1, s1) ∧
    (¬ t1.rows = [] → s1.rewritten_files = none ∧ s1.rewritten_rows = some t1.rows.length) ∧
    (t1.rows = [] → s1.rewritten_files = some 0) := by
  rw [binPack_none_eq] at h
  by_cases hr : t.rows.length = 0
  · rw [if_pos hr] at h
    cases h
    have h0 : t.rows = [] := List.length_eq_zero.mp hr
    refine ⟨?_, fun hc => absurd h0 hc, fun _ => rfl⟩
    rw [binPack_none_eq, if_pos hr]
  · rw [if_neg hr] at h
    cases h
    refine ⟨binPack_nonempty ⟨t.schema, t.rows⟩ hr, fun _ => ⟨rfl, rfl⟩, fun hc => ?_⟩
    exact absurd (by simpa using congrArg List.length hc) hr

/-- C2 amended, witness: the amended statement at the concrete two-row
table. -/
theorem binPack_stable_state_rewrites_all_witness :
    CompactionManager.bin_pack sampleTable 128 none =
      .ok (sampleTable, { rewritten_rows := some 2, strategy := some "bin_pack" }) ∧
    (¬ sampleTable.rows = [] →
      ({ rewritten_rows := some 2, strategy := some "bin_pack" } : CompactionStats).rewritten_files = none ∧
      ({ rewritten_rows := some 2, strategy := some "bin_pack" } : CompactionStats).rewritten_rows = some sampleTable.rows.length) ∧
    (sampleTable.rows = [] →
      ({ rewritten_rows := some 2, strategy := some "bin_pack" } : CompactionStats).rewritten_files = some 0) :=
  binPack_stable_state_rewrites_all sampleTable sampleTable
    { rewritten_rows := some 2, strategy := some "bin_pack" } (by decide)

/-- C3 counterexample: on an empty scan both compaction entry points return
normally, but the stats mapping is `rewritten_files: 0` (plus
`added_files: 0` for bin-pack) — it contains no `rewritten_rows` key, so it
does not report `rewritten_rows: 0` as claimed. -/
theorem emptyScan_stats_lack_rewritten_rows :
    CompactionManager.bin_pack emptyTable 128 none =
      .ok (emptyTable, { rewritten_files := some 0, added_files := some 0 }) ∧
    CompactionManager.sort emptyTable ["id"] 128 none =
      .ok (emptyTable, { rewritten_files := some 0 }) ∧
    ({ rewritten_files := some 0, added_files := some 0 } : CompactionStats).rewritten_rows = none ∧
    ({ rewritten_files := some 0 } : CompactionStats).rewritten_rows = none := by
  decide

/-- C3 amended: whenever the scan selects zero rows, both compaction entry
points return normally — not an error — leaving the table unchanged, with
stats `rewritten_files: 0` (and `added_files: 0` for bin-pack). -/
theorem emptyScan_returns_ok (t : IceTable) (f : Option FilterExpr) (ks : List String)
    (h : tableScan t f = .ok []) :
    CompactionManager.bin_pack t 128 f =
      .ok (t, { rewritten_files := some 0, added_files := some 0 }) ∧
    CompactionManager.sort t ks 128 f = .ok (t, { rewritten_files := some 0 }) := by
  unfold CompactionManager.bin_pack CompactionManager.sort
  rw [h]
  simp

/-- C3 amended, witness: the amended statement at the concrete empty table
with no filter. -/
theorem emptyScan_returns_ok_witness :
    CompactionManager.bin_pack emptyTable 128 none =
      .ok (emptyTable, { rewritten_files := some 0, added_files := some 0 }) ∧
    CompactionManager.sort emptyTable ["id"] 128 none =
      .ok (emptyTable, { rewritten_files := some 0 }) :=
  emptyScan_returns_ok emptyTable none ["id"] (by decide)

/-- C5 counterexample: a filter referencing a non-existent column makes
`bin_pack` fail with the pyiceberg binding `ValueError`, and a sort key
absent from the schema makes `sort` fail with the polars
`ColumnNotFoundError` — neither error is the spec's `PlanningError`, a type
the repository never defines. -/
theorem bad_column_error_is_not_planning :
    CompactionManager.bin_pack sampleTable 128 (some badColFilter) = .error .valueError ∧
    CompactionManager.sort sampleTable ["nope"] 128 none = .error .columnNotFoundError ∧
    isPlanningError .valueError = false ∧
    isPlanningError .columnNotFoundError = false := by
  decide

/-- C5 amended: a row filter referencing a column absent from the schema
makes `bin_pack` fail with the underlying `ValueError` — on every table,
empty or not, since the filter is bound before the row-count check — and,
on a nonempty scan, a sort key absent from the schema makes `sort` fail
with the underlying `ColumnNotFoundError`; in both cases the error is
raised before any rewrite or commit — the operation returns no new table
state. -/
theorem bad_column_fails_before_rewrite (t : IceTable) (f : FilterExpr)
    (ks : List String) (k : String)
    (hf : ¬ f.col ∈ t.schema) (hk : k ∈ ks) (hks : ¬ k ∈ t.schema) :
    CompactionManager.bin_pack t 128 (some f) = .error .valueError ∧
    (¬ t.rows = [] →
      CompactionManager.sort t ks 128 none = .error .columnNotFoundError) := by
  constructor
  · unfold CompactionManager.bin_pack
    rw [tableScan_not_mem t f hf]
  · intro hne
    have hlen : ¬ t.rows.length = 0 := fun hc => hne (List.length_eq_zero.mp hc)
    simp only [CompactionManager.sort, tableScan]
    rw [if_neg hlen]
    have hall : ks.all (fun c => t.schema.contains c) = false := by
      simp only [List.all_eq_false]
      refine ⟨k, hk, ?_⟩
      simpa using hks
    rw [hall]
    rfl

/-- C5 amended, witness: the amended statement at the concrete two-row
table, bad filter column `nope` and bad sort key `nope`. -/
theorem bad_column_fails_before_rewrite_witness :
    CompactionManager.bin_pack sampleTable 128 (some badColFilter) = .error .valueError ∧
    (¬ sampleTable.rows = [] →
      CompactionManager.sort sampleTable ["nope"] 128 none = .error .columnNotFoundError) :=
  bad_column_fails_before_rewrite sampleTable badColFilter ["nope"] "nope"
    (by decide) (by decide) (by decide)

/-- C6 counterexample: the names `compact` and `sort_compact`, which the
claim places in the registry, are rejected with `ValueError`, while
`rewrite_data_files` and `fast_forward` — outside the claimed registry —
are dispatched. -/
theorem call_registry_differs_from_spec :
    StoredProcedures.call "compact" = .error .valueError ∧
    StoredProcedures.call "sort_compact" = .error .valueError ∧
    StoredProcedures.call "rewrite_data_files" = .ok .rewrite_data_files ∧
    StoredProcedures.call "fast_forward" = .ok .fast_forward := by
  decide

/-- C6 amended: the dispatcher lowercases the name and validates it against
the registry `rewrite_data_files`, `expire_snapshots`, `remove_orphan_files`,
`fast_forward`; any other name raises `ValueError` without dispatching any
routine, while the four registered names dispatch to their routines.  There
is no `UnknownProcedure` or `InvalidParameters` type and no parameter
validation: keyword arguments are forwarded unchecked. -/
theorem call_unknown_name_fails (name : String) (h : ¬ pyLower name ∈ procRegistry) :
    StoredProcedures.call name = .error .valueError ∧
    StoredProcedures.call "rewrite_data_files" = .ok .rewrite_data_files ∧
    StoredProcedures.call "expire_snapshots" = .ok .expire_snapshots ∧
    StoredProcedures.call "remove_orphan_files" = .ok .remove_orphan_files ∧
    StoredProcedures.call "fast_forward" = .ok .fast_forward := by
  refine ⟨?_, by decide, by decide, by decide, by decide⟩
  unfold StoredProcedures.call
  simp only [procRegistry, List.mem_cons, List.not_mem_nil, or_false, not_or] at h
  obtain ⟨h1, h2, h3, h4⟩ := h
  simp [h1, h2, h3, h4]

/-- C6 amended, witness: the amended statement at the concrete unregistered
name `compact`. -/
theorem call_unknown_name_fails_witness :
    StoredProcedures.call "compact" = .error .valueError ∧
    StoredProcedures.call "rewrite_data_files" = .ok .rewrite_data_files ∧
    StoredProcedures.call "expire_snapshots" = .ok .expire_snapshots ∧
    StoredProcedures.call "remove_orphan_files" = .ok .remove_orphan_files ∧
    StoredProcedures.call "fast_forward" = .ok .fast_forward :=
  call_unknown_name_fails "compact" (by decide)

/-- `lexLe` is reflexive-total: one direction always holds. -/
theorem lexLe_total (a : List Int) : ∀ b : List Int, lexLe a b = true ∨ lexLe b a = true := by
  induction a with
  | nil => intro b; exact Or.inl rfl
  | cons x xs ih =>
    intro b
    cases b with
    | nil => exact Or.inr rfl
    | cons y ys =>
      rcases lt_trichotomy x y with hxy | hxy | hxy
      · left
        simp [lexLe, hxy]
      · subst hxy
        rcases ih ys with h | h
        · left
          simp [lexLe, h]
        · right
          simp [lexLe, h]
      · right
        simp [lexLe, hxy]

/-- `lexLe` is transitive. -/
theorem lexLe_trans (a : List Int) : ∀ b c : List Int,
    lexLe a b = true → lexLe b c = true → lexLe a c = true := by
  induction a with
  | nil => intro b c _ _; rfl
  | cons x xs ih =>
    intro b c h1 h2
    cases b with
    | nil => simp [lexLe] at h1
    | cons y ys =>
      cases c with
      | nil => simp [lexLe] at h2
      | cons z zs =>
        simp only [lexLe, Bool.or_eq_true, Bool.and_eq_true, decide_eq_true_eq] at h1 h2 ⊢
        rcases h1 with h1 | ⟨hxy, h1⟩
        · rcases h2 with h2 | ⟨hyz, h2⟩
          · exact Or.inl (lt_trans h1 h2)
          · exact Or.inl (hyz ▸ h1)
        · subst hxy
          rcases h2 with h2 | ⟨hyz, h2⟩
          · exact Or.inl h2
          · exact Or.inr ⟨hyz, ih ys zs h1 h2⟩

/-- Row comparison under a key sequence is total. -/
theorem rowLe_total (ks : List String) (r1 r2 : Row) :
    (rowLe ks r1 r2 || rowLe ks r2 r1) = true := by
  rcases lexLe_total (keyTuple ks r1) (keyTuple ks r2) with h | h <;>
    simp [rowLe, h]

/-- Row comparison under a key sequence is transitive. -/
theorem rowLe_trans (ks : List String) (r1 r2 r3 : Row) :
    rowLe ks r1 r2 = true → rowLe ks r2 r3 = true → rowLe ks r1 r3 = true :=
  lexLe_trans (keyTuple ks r1) (keyTuple ks r2) (keyTuple ks r3)

/-- `CompactionManager.sort` with no filter reduced to its three outcomes. -/
theorem sort_none_eq (t : IceTable) (ks : List String) :
    CompactionManager.sort t ks 128 none =
      if t.rows.length = 0 then
        .ok (t, { rewritten_files := some 0 })
      else if ks.all (fun c => t.schema.contains c) then
        .ok (⟨t.schema, sortRows ks t.rows⟩,
             { rewritten_rows := some t.rows.length, strategy := some "sort",
               sort_order := some (toString ks) })
      else
        .error .columnNotFoundError := rfl

/-- C4: sort compaction is a sorted permutation of its input — for every
table and every sort-key list whose keys are columns of the table, a
successful `CompactionManager.sort` (default call, no row filter) commits
rows that are a permutation of the original rows, sorted by the key
sequence, with the schema unchanged. -/
theorem sort_is_sorted_permutation (t : IceTable) (ks : List String)
    (hks : ∀ c ∈ ks, c ∈ t.schema) (t1 : IceTable) (s : CompactionStats)
    (h : CompactionManager.sort t ks 128 none = .ok (t1, s)) :
    t1.rows.Perm t.rows ∧
    List.Pairwise (fun a b => rowLe ks a b = true) t1.rows ∧
    t1.schema = t.schema := by
  rw [sort_none_eq] at h
  by_cases hr : t.rows.length = 0
  · rw [if_pos hr] at h
    cases h
    have h0 : t.rows = [] := List.length_eq_zero.mp hr
    refine ⟨List.Perm.refl _, ?_, rfl⟩
    rw [h0]
    exact List.Pairwise.nil
  · rw [if_neg hr] at h
    have hall : ks.all (fun c => t.schema.contains c) = true := by
      simp only [List.all_eq_true]
      intro c hc
      simpa using hks c hc
    rw [if_pos hall] at h
    cases h
    haveI htot : IsTotal Row (fun r1 r2 => rowLe ks r1 r2 = true) :=
      ⟨fun a b => by
        have := rowLe_total ks a b
        rcases Bool.or_eq_true_iff.mp this with hh | hh
        · exact Or.inl hh
        · exact Or.inr hh⟩
    haveI htr : IsTrans Row (fun r1 r2 => rowLe ks r1 r2 = true) :=
      ⟨fun a b c => rowLe_trans ks a b c⟩
    exact ⟨List.perm_insertionSort _ t.rows, List.sorted_insertionSort _ t.rows, rfl⟩

/-- `keepIdx` keeps at least every element whose position is at or beyond
`m`, when the predicate holds from position `m` on. -/
theorem keepIdx_length_ge {α : Type} (p : Nat → α → Bool) (m : Nat)
    (hp : ∀ j x, m ≤ j → p j x = true) :
    ∀ (l : List α) (s : Nat), l.length - (m - s) ≤ (keepIdx p s l).length := by
  intro l
  induction l with
  | nil => intro s; simp [keepIdx]
  | cons x xs ih =>
    intro s
    by_cases hps : p s x = true
    · rw [keepIdx, if_pos hps]
      have := ih (s + 1)
      simp only [List.length_cons]
      omega
    · have hsm : s < m := by
        by_contra hge
        exact hps (hp s x (by omega))
      rw [keepIdx, if_neg hps]
      have := ih (s + 1)
      simp only [List.length_cons]
      omega

/-- `keepIdx` keeps the last element when the predicate holds at its
position. -/
theorem keepIdx_getLast_mem {α : Type} (p : Nat → α → Bool) :
    ∀ (l : List α) (s : Nat) (h : l ≠ []),
      p (s + l.length - 1) (l.getLast h) = true → l.getLast h ∈ keepIdx p s l := by
  intro l
  induction l with
  | nil => intro s h; exact absurd rfl h
  | cons x xs ih =>
    intro s h hp
    cases xs with
    | nil =>
      have hx : [x].getLast h = x := rfl
      rw [hx] at hp ⊢
      have hs : s + [x].length - 1 = s := by simp
      rw [hs] at hp
      rw [keepIdx, if_pos hp]
      exact List.mem_cons_self x _
    | cons y ys =>
      have hne : (y :: ys) ≠ [] := by simp
      have hl : (x :: y :: ys).getLast h = (y :: ys).getLast hne :=
        List.getLast_cons hne
      rw [hl] at hp ⊢
      have harg : s + (x :: y :: ys).length - 1 = (s + 1) + (y :: ys).length - 1 := by
        simp only [List.length_cons]
        omega
      rw [harg] at hp
      have hmem := ih (s + 1) hne hp
      rw [keepIdx]
      by_cases hpx : p s x = true
      · rw [if_pos hpx]
        exact List.mem_cons_of_mem x hmem
      · rw [if_neg hpx]
        exact hmem

/-- C7: snapshot expiry preserves the retention floor and the current
snapshot — for every retention parameterization, after
`GarbageCollector.expire_snapshots` the history still holds at least
`retain_last` snapshots (capped at the history size), and the current
(most recent) snapshot is always retained regardless of its age. -/
theorem expire_snapshots_retention_floor_and_current (older_than_ms : Option Nat)
    (retain_last max_workers now : Nat) (t : GCTable) (h : t.snapshots ≠ []) :
    min retain_last t.snapshots.length ≤
      (GarbageCollector.expire_snapshots older_than_ms retain_last max_workers now t).snapshots.length ∧
    t.snapshots.getLastD ⟨0, 0⟩ ∈
      (GarbageCollector.expire_snapshots older_than_ms retain_last max_workers now t).snapshots := by
  unfold GarbageCollector.expire_snapshots pyicebergExpireSnapshots
  dsimp only
  constructor
  · have hfloor := keepIdx_length_ge
      (fun i s =>
        decide (t.snapshots.length ≤ i + retain_last) ||
        (match older_than_ms with
         | some maxAge => decide (now < s.timestamp + maxAge)
         | none => false) ||
        decide (i + 1 = t.snapshots.length))
      (t.snapshots.length - retain_last)
      (fun j x hj => by
        simp only [Bool.or_eq_true, decide_eq_true_eq]
        exact Or.inl (Or.inl (by omega)))
      t.snapshots 0
    omega
  · have hgl : t.snapshots.getLastD ⟨0, 0⟩ = t.snapshots.getLast h := by
      rw [List.getLastD_eq_getLast?, List.getLast?_eq_getLast _ h]
      rfl
    rw [hgl]
    apply keepIdx_getLast_mem
    have hlen : 1 ≤ t.snapshots.length := List.length_pos.mpr h
    simp only [Bool.or_eq_true, decide_eq_true_eq]
    exact Or.inr (by omega)

/-- C7, witness: three snapshots all older than the age cutoff,
`retain_last = 1` — the retained history still has one snapshot and it is
the current one. -/
theorem expire_snapshots_retention_witness :
    min 1 sampleGCTable.snapshots.length ≤
      (GarbageCollector.expire_snapshots (some 5) 1 4 1000 sampleGCTable).snapshots.length ∧
    sampleGCTable.snapshots.getLastD ⟨0, 0⟩ ∈
      (GarbageCollector.expire_snapshots (some 5) 1 4 1000 sampleGCTable).snapshots :=
  expire_snapshots_retention_floor_and_current (some 5) 1 4 1000 sampleGCTable (by decide)

/-- C8: orphan removal honors the grace period — for every table state and
every file present under the table's storage location, a file whose age
measured from last-modified time is below the effective grace period is
never deleted by `remove_orphan_files`, even when it is referenced by no
retained snapshot (and when pyiceberg lacks `remove_orphan_files` the call
raises `NotImplementedError` and deletes nothing at all). -/
theorem remove_orphan_files_honors_grace (older_than_ms : Option Nat)
    (max_workers now : Nat) (t t1 : GCTable) (f : StoredFile)
    (hf : f ∈ t.files)
    (hy : now - f.last_modified < older_than_ms.getD defaultOrphanGraceMs)
    (h : GarbageCollector.remove_orphan_files older_than_ms max_workers now t = .ok t1) :
    f ∈ t1.files := by
  unfold GarbageCollector.remove_orphan_files at h
  by_cases hs : t.supports_remove_orphans = true
  · rw [if_pos hs] at h
    cases h
    unfold pyicebergRemoveOrphanFiles
    refine List.mem_filter.mpr ⟨hf, ?_⟩
    simp only [Bool.or_eq_true, decide_eq_true_eq]
    exact Or.inr (by omega)
  · rw [if_neg hs] at h
    cases h

/-- C8, witness: an unreferenced file three seconds old survives orphan
removal under a five-second grace period. -/
theorem remove_orphan_files_grace_witness :
    (⟨"data/a.parquet", 0⟩ : StoredFile) ∈ sampleGCTable.files ∧
    (3 : Nat) - (0 : Nat) < (some 5 : Option Nat).getD defaultOrphanGraceMs ∧
    (⟨"data/a.parquet", 0⟩ : StoredFile) ∈
      (sampleGCTable.files.filter (fun fl =>
        sampleGCTable.live.contains fl.path || decide (3 < fl.last_modified + 5))) :=
  ⟨by decide, by decide,
   remove_orphan_files_honors_grace (some 5) 4 3 sampleGCTable
     { sampleGCTable with
        files := sampleGCTable.files.filter (fun fl =>
          sampleGCTable.live.contains fl.path || decide (3 < fl.last_modified + 5)) }
     ⟨"data/a.parquet", 0⟩ (by decide) (by decide) (by decide)⟩

/-- `range'` with an arbitrary step as a map over `range`. -/
theorem range'_eq_map (step : Nat) : ∀ (n s : Nat),
    List.range' s n step = (List.range n).map (fun i => s + i * step) := by
  intro n
  induction n with
  | zero => intro s; rfl
  | succ k ih =>
    intro s
    rw [List.range_succ_eq_map, List.map_cons, List.map_map]
    have hh : List.range' s (k + 1) step = s :: List.range' (s + step) k step := rfl
    rw [hh, ih (s + step)]
    congr 1
    · omega
    · apply List.map_congr_left
      intro i _
      simp only [Function.comp_apply, Nat.succ_eq_add_one]
      ring

/-- The Python slice `df.slice(start, min(start + cs, len(df)) - start)` is
just `take cs` of the dropped suffix. -/
theorem slice_take {α : Type} (l : List α) (start cs : Nat) :
    (l.drop start).take (min (start + cs) l.length - start) = (l.drop start).take cs := by
  rcases le_or_lt (start + cs) l.length with hle | hlt
  · rw [min_eq_left hle]
    congr 1
    omega
  · rw [min_eq_right (by omega)]
    have hlen : (l.drop start).length = l.length - start := List.length_drop start l
    rw [List.take_of_length_le (by omega), List.take_of_length_le (by omega)]

/-- Concatenating the successive `take cs`-of-`drop` chunks yields the
prefix of length `k * cs`. -/
theorem flatten_chunks {α : Type} (cs : Nat) :
    ∀ (k : Nat) (l : List α),
      ((List.range k).map (fun i => (l.drop (i * cs)).take cs)).flatten = l.take (k * cs) := by
  intro k
  induction k with
  | zero => intro l; simp
  | succ n ih =>
    intro l
    rw [List.range_succ, List.map_append, List.flatten_append, ih]
    simp only [List.map_cons, List.map_nil, List.flatten_cons, List.flatten_nil,
      List.append_nil]
    rw [show (n + 1) * cs = n * cs + cs by ring, List.take_add]

/-- `read_table_chunked` in closed form: ceil-many chunks, the `i`-th being
`take cs` of the suffix from position `i * cs` of the single full read. -/
theorem read_table_chunked_eq (t : IceTable) (cols : Option (List String))
    (cs : Nat) (h : ¬ cs = 0) :
    MemoryManager.read_table_chunked t cs cols =
      .ok ((List.range (((IceFrame.read_table t cols).length + cs - 1) / cs)).map
        (fun i => ((IceFrame.read_table t cols).drop (i * cs)).take cs)) := by
  unfold MemoryManager.read_table_chunked
  rw [if_neg h]
  dsimp only
  congr 1
  rw [range'_eq_map cs _ 0, List.map_map]
  apply List.map_congr_left
  intro i _
  simp only [Function.comp_apply, Nat.zero_add]
  exact slice_take (IceFrame.read_table t cols) (i * cs) cs

/-- C9: chunked reads partition the table faithfully — for chunk sizes of at
least one, every yielded chunk has at most `chunk_size` rows, every chunk
but possibly the last has exactly `chunk_size` rows, and the in-order
concatenation of the chunks equals the dataframe of a single full
`read_table` with the same column selection (which the code materializes
before slicing). -/
theorem read_table_chunked_partitions_table (t : IceTable)
    (cols : Option (List String)) (cs : Nat) (chunks : List (List Row))
    (hcs : 1 ≤ cs)
    (h : MemoryManager.read_table_chunked t cs cols = .ok chunks) :
    (∀ c ∈ chunks, c.length ≤ cs) ∧
    (∀ i, i + 1 < chunks.length → (chunks.getD i []).length = cs) ∧
    chunks.flatten = IceFrame.read_table t cols := by
  have hcs0 : ¬ cs = 0 := by omega
  rw [read_table_chunked_eq t cols cs hcs0] at h
  cases h
  refine ⟨?_, ?_, ?_⟩
  · intro c hc
    rw [List.mem_map] at hc
    obtain ⟨i, _, rfl⟩ := hc
    rw [List.length_take]
    exact min_le_left _ _
  · intro i hi
    rw [List.length_map, List.length_range] at hi
    rw [List.getD_eq_getElem?_getD, List.getElem?_map,
      List.getElem?_range (by omega :
        i < ((IceFrame.read_table t cols).length + cs - 1) / cs)]
    simp only [Option.map_some', Option.getD_some]
    rw [List.length_take, List.length_drop]
    have hk : i + 2 ≤ ((IceFrame.read_table t cols).length + cs - 1) / cs := by omega
    have h1 : (i + 2) * cs ≤ (IceFrame.read_table t cols).length + cs - 1 :=
      (Nat.le_div_iff_mul_le (by omega)).mp hk
    have h2 : (i + 2) * cs = i * cs + cs + cs := by ring
    omega
  · rw [flatten_chunks]
    apply List.take_of_length_le
    have hd := Nat.div_add_mod ((IceFrame.read_table t cols).length + cs - 1) cs
    have hm : ((IceFrame.read_table t cols).length + cs - 1) % cs < cs :=
      Nat.mod_lt _ (by omega)
    have hcomm :
        (((IceFrame.read_table t cols).length + cs - 1) / cs) * cs =
        cs * (((IceFrame.read_table t cols).length + cs - 1) / cs) := Nat.mul_comm _ _
    omega

/-- C9, witness: a five-row table read in chunks of two gives chunks of
sizes two, two, one whose concatenation is the full read. -/
theorem read_table_chunked_partitions_table_witness :
    (∀ c ∈ [[[("a", (1 : Int))], [("a", 2)]], [[("a", 3)], [("a", 4)]], [[("a", 5)]]],
      c.length ≤ 2) ∧
    (∀ i, i + 1 <
        ([[[("a", (1 : Int))], [("a", 2)]], [[("a", 3)], [("a", 4)]], [[("a", 5)]]] :
          List (List Row)).length →
      (([[[("a", (1 : Int))], [("a", 2)]], [[("a", 3)], [("a", 4)]], [[("a", 5)]]] :
          List (List Row)).getD i []).length = 2) ∧
    ([[[("a", (1 : Int))], [("a", 2)]], [[("a", 3)], [("a", 4)]], [[("a", 5)]]] :
        List (List Row)).flatten =
      IceFrame.read_table ⟨["a"], [[("a", 1)], [("a", 2)], [("a", 3)], [("a", 4)], [("a", 5)]]⟩ none :=
  read_table_chunked_partitions_table
    ⟨["a"], [[("a", 1)], [("a", 2)], [("a", 3)], [("a", 4)], [("a", 5)]]⟩ none 2
    [[[("a", 1)], [("a", 2)]], [[("a", 3)], [("a", 4)]], [[("a", 5)]]]
    (by decide) (by decide)

/-- `flush` always leaves the buffer empty. -/
theorem flush_buffer_empty (w : StreamingWriter) (now : Nat) :
    (w.flush now).buffer = [] := by
  unfold StreamingWriter.flush
  by_cases h : w.buffer.isEmpty = true
  · rw [if_pos h]
    exact List.isEmpty_iff.mp h
  · rw [if_neg h]

/-- `flush` on an empty buffer is a no-op: in particular it performs no
append. -/
theorem flush_empty_noop (w : StreamingWriter) (now : Nat) (h : w.buffer = []) :
    w.flush now = w := by
  unfold StreamingWriter.flush
  rw [if_pos (List.isEmpty_iff.mpr h)]

/-- `flush` moves bytes but conserves the writer's content. -/
theorem flush_content (w : StreamingWriter) (now : Nat) :
    wContent (w.flush now) = wContent w := by
  unfold StreamingWriter.flush wContent
  by_cases h : w.buffer.isEmpty = true
  · rw [if_pos h]
  · rw [if_neg h]
    simp

/-- `write` appends exactly the new record to the writer's content. -/
theorem write_content (w : StreamingWriter) (r : Row) (now : Nat) :
    wContent (w.write r now) = wContent w ++ [r] := by
  unfold StreamingWriter.write
  by_cases hc : w.batch_size ≤ w.buffer.length + 1 ∨ w.flush_interval ≤ now - w.last_flush
  · rw [if_pos (by simpa using hc), flush_content]
    unfold wContent
    simp
  · rw [if_neg (by simpa using hc)]
    unfold wContent
    simp

/-- A sequence of `write` calls appends exactly the written records, in
order. -/
theorem writeSeq_content (recs : List (Row × Nat)) :
    ∀ w : StreamingWriter, wContent (w.writeSeq recs) = wContent w ++ recs.map Prod.fst := by
  induction recs with
  | nil => intro w; simp [StreamingWriter.writeSeq]
  | cons p rest ih =>
    intro w
    rw [StreamingWriter.writeSeq, ih, write_content]
    simp

/-- `writeSeq` preserves the configured batch size. -/
theorem writeSeq_batch_size (recs : List (Row × Nat)) :
    ∀ w : StreamingWriter, (w.writeSeq recs).batch_size = w.batch_size := by
  induction recs with
  | nil => intro w; rfl
  | cons p rest ih =>
    intro w
    rw [StreamingWriter.writeSeq, ih]
    unfold StreamingWriter.write
    by_cases hc : w.batch_size ≤ w.buffer.length + 1 ∨ w.flush_interval ≤ p.2 - w.last_flush
    · rw [if_pos (by simpa using hc)]
      unfold StreamingWriter.flush
      by_cases he : (w.buffer ++ [p.1]).isEmpty = true
      · rw [if_pos he]
      · rw [if_neg he]
    · rw [if_neg (by simpa using hc)]

/-- C10: the streaming writer neither loses nor duplicates records — after
any `write` the buffer holds strictly fewer than `batch_size` records (for
any positive batch size), `flush` always empties the buffer and is a no-op
(no append) on an empty buffer, and after `close` every record ever written
has been appended to the table exactly once, in order, with an empty
buffer left behind. -/
theorem streaming_writer_no_loss_no_dup (w : StreamingWriter) (record : Row)
    (t1 t2 tc bs fi t0 : Nat) (recs : List (Row × Nat))
    (hbs : 1 ≤ w.batch_size) :
    (w.write record t1).buffer.length < w.batch_size ∧
    (w.flush t2).buffer = [] ∧
    (w.buffer = [] → w.flush t2 = w) ∧
    (((StreamingWriter.init bs fi t0).writeSeq recs).close tc).appended.flatten =
      recs.map Prod.fst ∧
    (((StreamingWriter.init bs fi t0).writeSeq recs).close tc).buffer = [] := by
  refine ⟨?_, flush_buffer_empty w t2, flush_empty_noop w t2, ?_, ?_⟩
  · unfold StreamingWriter.write
    by_cases hc : w.batch_size ≤ w.buffer.length + 1 ∨ w.flush_interval ≤ t1 - w.last_flush
    · rw [if_pos (by simpa using hc), flush_buffer_empty]
      simpa using hbs
    · rw [if_neg (by simpa using hc)]
      simp only [List.length_append, List.length_cons, List.length_nil]
      omega
  · have hct : wContent (((StreamingWriter.init bs fi t0).writeSeq recs).close tc) =
        recs.map Prod.fst := by
      unfold StreamingWriter.close
      rw [flush_content, writeSeq_content]
      rfl
    have hb := flush_buffer_empty ((StreamingWriter.init bs fi t0).writeSeq recs) tc
    unfold wContent at hct
    unfold StreamingWriter.close at hct ⊢
    rw [hb, List.append_nil] at hct
    exact hct
  · exact flush_buffer_empty _ tc

/-- C10, witness: three records streamed through a writer with batch size
two all land in the table exactly once, and the buffer bound and flush
properties hold on a concrete writer state. -/
theorem streaming_writer_no_loss_no_dup_witness :
    ((⟨2, 60, [], 0, []⟩ : StreamingWriter).write [("id", 7)] 1).buffer.length <
      (⟨2, 60, [], 0, []⟩ : StreamingWriter).batch_size ∧
    ((⟨2, 60, [], 0, []⟩ : StreamingWriter).flush 2).buffer = [] ∧
    ((⟨2, 60, [], 0, []⟩ : StreamingWriter).buffer = [] →
      (⟨2, 60, [], 0, []⟩ : StreamingWriter).flush 2 = (⟨2, 60, [], 0, []⟩ : StreamingWriter)) ∧
    (((StreamingWriter.init 2 60 0).writeSeq
        [([("a", 1)], 1), ([("a", 2)], 2), ([("a", 3)], 3)]).close 9).appended.flatten =
      ([([("a", 1)], 1), ([("a", 2)], 2), ([("a", 3)], 3)] : List (Row × Nat)).map Prod.fst ∧
    (((StreamingWriter.init 2 60 0).writeSeq
        [([("a", 1)], 1), ([("a", 2)], 2), ([("a", 3)], 3)]).close 9).buffer = [] :=
  streaming_writer_no_loss_no_dup ⟨2, 60, [], 0, []⟩ [("id", 7)] 1 2 9 2 60 0
    [([("a", 1)], 1), ([("a", 2)], 2), ([("a", 3)], 3)] (by decide)

/-- C4, witness: sorting the two-row table stored in descending `id` order
produces the ascending permutation. -/
theorem sort_is_sorted_permutation_witness :
    ((⟨["id"], [[("id", 1)], [("id", 2)]]⟩ : IceTable).rows).Perm unsortedTable.rows ∧
    List.Pairwise (fun a b => rowLe ["id"] a b = true)
      (⟨["id"], [[("id", 1)], [("id", 2)]]⟩ : IceTable).rows ∧
    (⟨["id"], [[("id", 1)], [("id", 2)]]⟩ : IceTable).schema = unsortedTable.schema :=
  sort_is_sorted_permutation unsortedTable ["id"] (by decide)
    ⟨["id"], [[("id", 1)], [("id", 2)]]⟩
    { rewritten_rows := some 2, strategy := some "sort",
      sort_order := some (toString ["id"]) } (by decide)
